import Mathlib

/-!
Verification of the block-management layer of the FFS log-structured flash
filesystem (`ffs_block.c`): the on-flash disk-block codec, the block reader
and writer, the two RAM-materialization modes, and deletion from the RAM
index.  Collaborator interfaces (flash I/O, space allocator, identifier
hash index, flash-location codec) are external to the translated file; they
are either quantified over as environments or modelled from the spec's
collaborator contracts, as noted on each definition.
-/

namespace Ffs

/-- Modelled from the spec: the fixed 32-bit magic constant marking a valid
block header (`FFS_BLOCK_MAGIC`, declared in the missing `ffs_priv.h`).
Its exact value is immaterial to this layer; it is a fixed constant. -/
def FFS_BLOCK_MAGIC : Nat := 0x53ba23b9

/-- Modelled from the spec: the sentinel identifier meaning "no predecessor"
(`FFS_ID_NONE`, declared in the missing `ffs.h`/`ffs_priv.h`). -/
def FFS_ID_NONE : Nat := 0xffffffff

/-- Modelled from the spec: the `UnexpectedFormat` error code (`FFS_EUNEXP`,
declared in the missing `ffs.h`).  A fixed nonzero return code. -/
def FFS_EUNEXP : Int := 9

/-- Modelled from the spec: the `Corrupt` error code (`FFS_ECORRUPT`,
declared in the missing `ffs.h`).  A fixed nonzero return code, distinct
from `FFS_EUNEXP`. -/
def FFS_ECORRUPT : Int := 3

/-- On-flash block header `struct ffs_disk_block`.  Field layout follows the
spec's external-interface table: five 32-bit fields followed by the 16-bit
payload length, in this order.  Fields are `Nat`s; width constraints are
stated as the `Wf` predicate below. -/
structure DiskBlock where
  fdb_magic : Nat
  fdb_id : Nat
  fdb_seq : Nat
  fdb_inode_id : Nat
  fdb_prev_id : Nat
  fdb_data_len : Nat
  deriving Repr, DecidableEq

/-- Width constraints the C types (`uint32_t` ×5, `uint16_t`) impose on a
disk block's fields. -/
def DiskBlock.Wf (db : DiskBlock) : Prop :=
  db.fdb_magic < 2 ^ 32 ∧ db.fdb_id < 2 ^ 32 ∧ db.fdb_seq < 2 ^ 32 ∧
  db.fdb_inode_id < 2 ^ 32 ∧ db.fdb_prev_id < 2 ^ 32 ∧ db.fdb_data_len < 2 ^ 16

instance (db : DiskBlock) : Decidable db.Wf := by
  unfold DiskBlock.Wf; infer_instance

/-- Modelled from the spec: a flash location is an opaque composite of an
area index and a byte offset (`ffs_flash_loc` / `ffs_flash_loc_expand` live
in a missing file; this layer treats the packed value as opaque, so the
model keeps the two components directly). -/
structure FlashLoc where
  area_idx : Nat
  area_offset : Nat
  deriving Repr, DecidableEq

/-- `ffs_flash_loc`: pack an (area index, area offset) pair into a flash
location.  Modelled from the spec: opaque composite of the two parts. -/
def ffs_flash_loc (area_idx area_offset : Nat) : FlashLoc :=
  ⟨area_idx, area_offset⟩

/-- `ffs_flash_loc_expand`: recover the (area index, area offset) pair from
a flash location.  Modelled from the spec: inverse of `ffs_flash_loc`. -/
def ffs_flash_loc_expand (loc : FlashLoc) : Nat × Nat :=
  (loc.area_idx, loc.area_offset)

/-- A generic index entry `struct ffs_hash_entry`: identifier plus flash
location of the object's header.  Modelled from the spec: the record the
external hash index keeps per identifier. -/
structure HashEntry where
  fhe_id : Nat
  fhe_flash_loc : FlashLoc
  deriving Repr, DecidableEq

/-- An inode's index record `struct ffs_inode` (the part this layer
touches): its hash entry plus the mutable tail reference `fi_last_block`.
References are by identifier (entries are uniquely keyed by id, so pointer
identity coincides with id equality); `none` is the C `NULL`.  Modelled
from the spec: inode records live in the missing inode subsystem. -/
structure InodeEntry where
  fi_hash_entry : HashEntry
  fi_last_block : Option Nat
  deriving Repr, DecidableEq

/-- In-memory block record `struct ffs_block`.  `fb_inode_entry` and
`fb_prev` are nullable references, held by identifier (see `InodeEntry`). -/
structure Block where
  fb_id : Nat
  fb_seq : Nat
  fb_flash_loc : FlashLoc
  fb_inode_entry : Option Nat
  fb_prev : Option Nat
  fb_data_len : Nat
  deriving Repr, DecidableEq

/-- The in-memory object index, as far as this layer observes it: the live
inode entries and the live block entries.  Modelled from the spec: the
identifier-keyed hash index is an external collaborator (missing
`ffs_hash.c`); lookups search by identifier. -/
structure FsState where
  inodes : List InodeEntry
  blocks : List HashEntry
  deriving Repr, DecidableEq

/-- `ffs_hash_find_inode`: look up a live inode entry by identifier.
Modelled from the spec: `find_inode(id) -> InodeEntry?`. -/
def ffs_hash_find_inode (st : FsState) (id : Nat) : Option InodeEntry :=
  st.inodes.find? (fun ino => ino.fi_hash_entry.fhe_id == id)

/-- `ffs_hash_find_block`: look up a live block entry by identifier.
Modelled from the spec: `find_block(id) -> IndexEntry?`. -/
def ffs_hash_find_block (st : FsState) (id : Nat) : Option HashEntry :=
  st.blocks.find? (fun e => e.fhe_id == id)

/-- `ffs_hash_remove` restricted to block entries: remove the given entry
from the index.  Pointer identity is id identity (entries are uniquely
keyed), so the first entry with the removed id goes.  Modelled from the
spec: `remove(entry)` of the identifier-index collaborator. -/
def ffs_hash_remove (blocks : List HashEntry) (entry : HashEntry) : List HashEntry :=
  match blocks with
  | [] => []
  | b :: rest =>
      if b.fhe_id = entry.fhe_id then rest
      else b :: ffs_hash_remove rest entry

/-- The raw flash-read collaborator, specialised to header-sized reads: for
an (area index, area offset) it yields the return code of `ffs_flash_read`
together with the header-sized region interpreted as `struct
ffs_disk_block` (meaningful only when the return code is 0).  Theorems
quantify over all environments. -/
def FlashEnv : Type := Nat → Nat → Int × DiskBlock

/-- `ffs_block_read_disk`: read a block header from flash at the given
location, propagating a flash-read failure unchanged and rejecting a
header whose magic is not `FFS_BLOCK_MAGIC` with `FFS_EUNEXP`. -/
def ffs_block_read_disk (flash : FlashEnv) (area_idx area_offset : Nat) :
    Except Int DiskBlock :=
  let (rc, db) := flash area_idx area_offset
  if rc ≠ 0 then .error rc
  else if db.fdb_magic ≠ FFS_BLOCK_MAGIC then .error FFS_EUNEXP
  else .ok db

/-- `ffs_block_from_disk_no_ptrs`: build the skeletal in-memory block from
a disk header and its location, leaving both references unresolved. -/
def ffs_block_from_disk_no_ptrs (disk_block : DiskBlock)
    (area_idx area_offset : Nat) : Block :=
  { fb_id := disk_block.fdb_id
    fb_seq := disk_block.fdb_seq
    fb_flash_loc := ffs_flash_loc area_idx area_offset
    fb_inode_entry := none
    fb_prev := none
    fb_data_len := disk_block.fdb_data_len }

/-- `ffs_block_from_disk`: build the in-memory block and resolve its
references through the index: the owning inode always, the predecessor
only when `fdb_prev_id` is not the sentinel.  An unresolvable reference is
`FFS_ECORRUPT`. -/
def ffs_block_from_disk (st : FsState) (disk_block : DiskBlock)
    (area_idx area_offset : Nat) : Except Int Block :=
  let b := ffs_block_from_disk_no_ptrs disk_block area_idx area_offset
  match ffs_hash_find_inode st disk_block.fdb_inode_id with
  | none => .error FFS_ECORRUPT
  | some ino =>
      let b := { b with fb_inode_entry := some ino.fi_hash_entry.fhe_id }
      if disk_block.fdb_prev_id ≠ FFS_ID_NONE then
        match ffs_hash_find_block st disk_block.fdb_prev_id with
        | none => .error FFS_ECORRUPT
        | some pe => .ok { b with fb_prev := some pe.fhe_id }
      else .ok b

/-- `ffs_block_to_disk`: encode an in-memory block as a disk header.
Precondition (C `assert`): `fb_inode_entry` is resolved; the dereference of
the asserted-non-null owner is modelled with a default that the
precondition makes unreachable. -/
def ffs_block_to_disk (block : Block) : DiskBlock :=
  { fdb_magic := FFS_BLOCK_MAGIC
    fdb_id := block.fb_id
    fdb_seq := block.fb_seq
    fdb_inode_id := block.fb_inode_entry.getD 0
    fdb_prev_id :=
      match block.fb_prev with
      | none => FFS_ID_NONE
      | some pid => pid
    fdb_data_len := block.fb_data_len }

/-- `ffs_block_from_hash_entry_no_ptrs`: materialize the skeletal in-memory
block for an index entry — read the header at the entry's location and
build the record with both references unresolved. -/
def ffs_block_from_hash_entry_no_ptrs (flash : FlashEnv)
    (block_entry : HashEntry) : Except Int Block :=
  let (area_idx, area_offset) := ffs_flash_loc_expand block_entry.fhe_flash_loc
  match ffs_block_read_disk flash area_idx area_offset with
  | .error rc => .error rc
  | .ok disk_block =>
      .ok (ffs_block_from_disk_no_ptrs disk_block area_idx area_offset)

/-- `ffs_block_from_hash_entry`: materialize the fully-resolved in-memory
block for an index entry — read the header at the entry's location, then
resolve the owning inode and (when present) the predecessor through the
index. -/
def ffs_block_from_hash_entry (flash : FlashEnv) (st : FsState)
    (block_entry : HashEntry) : Except Int Block :=
  let (area_idx, area_offset) := ffs_flash_loc_expand block_entry.fhe_flash_loc
  match ffs_block_read_disk flash area_idx area_offset with
  | .error rc => .error rc
  | .ok disk_block =>
      match ffs_block_from_disk st disk_block area_idx area_offset with
      | .error rc => .error rc
      | .ok block => .ok block

/-- Modelled from the spec: the byte width of `struct ffs_disk_block`
(`sizeof`), per the external-interface table — five 32-bit fields and one
16-bit field, contiguous, no padding. -/
def DISK_BLOCK_SIZE : Nat := 22

/-- Little-endian byte splitting of a 32-bit field. -/
def le32 (n : Nat) : List Nat :=
  [n % 2 ^ 8, n / 2 ^ 8 % 2 ^ 8, n / 2 ^ 16 % 2 ^ 8, n / 2 ^ 24 % 2 ^ 8]

/-- Little-endian byte splitting of a 16-bit field. -/
def le16 (n : Nat) : List Nat :=
  [n % 2 ^ 8, n / 2 ^ 8 % 2 ^ 8]

/-- Modelled from the spec: the flat byte serialization of a disk-block
header, fields in the table's order (`magic`, `id`, `seq`, `inode_id`,
`prev_id`, `data_len`), each little-endian, no padding.  This is the buffer
image the C code hands to flash as `sizeof *disk_block` raw struct bytes. -/
def serializeDiskBlock (db : DiskBlock) : List Nat :=
  le32 db.fdb_magic ++ le32 db.fdb_id ++ le32 db.fdb_seq ++
    le32 db.fdb_inode_id ++ le32 db.fdb_prev_id ++ le16 db.fdb_data_len

/-- Read a little-endian 32-bit field at a byte offset. -/
def readLe32 (bytes : List Nat) (off : Nat) : Nat :=
  bytes.getD off 0 % 2 ^ 8 + bytes.getD (off + 1) 0 % 2 ^ 8 * 2 ^ 8 +
    bytes.getD (off + 2) 0 % 2 ^ 8 * 2 ^ 16 + bytes.getD (off + 3) 0 % 2 ^ 8 * 2 ^ 24

/-- Read a little-endian 16-bit field at a byte offset. -/
def readLe16 (bytes : List Nat) (off : Nat) : Nat :=
  bytes.getD off 0 % 2 ^ 8 + bytes.getD (off + 1) 0 % 2 ^ 8 * 2 ^ 8

/-- Modelled from the spec: `decode(buffer) -> DiskBlock |
fails(UnexpectedFormat)` — parse the fixed-size header from the buffer
(field layout as in `serializeDiskBlock`), failing exactly when the parsed
magic field is not the expected constant. -/
def decodeDiskBlock (bytes : List Nat) : Except Int DiskBlock :=
  let db : DiskBlock :=
    { fdb_magic := readLe32 bytes 0
      fdb_id := readLe32 bytes 4
      fdb_seq := readLe32 bytes 8
      fdb_inode_id := readLe32 bytes 12
      fdb_prev_id := readLe32 bytes 16
      fdb_data_len := readLe16 bytes 20 }
  if db.fdb_magic ≠ FFS_BLOCK_MAGIC then .error FFS_EUNEXP else .ok db

/-- The write-side collaborators: `ffs_misc_reserve_space` yields a return
code plus an (area index, area offset) pair (meaningful only when the code
is 0); `ffs_flash_write` takes the destination and the bytes written and
yields a return code.  Theorems quantify over all environments. -/
structure WriterEnv where
  reserve : Nat → Int × Nat × Nat
  flash_write : Nat → Nat → List Nat → Int

/-- One observable collaborator call made by the block writer: a space
reservation of so many bytes, or a flash write of the given bytes at the
given location. -/
inductive WriterCall where
  | reserve (num_bytes : Nat)
  | flash_write (area_idx : Nat) (area_offset : Nat) (bytes : List Nat)
  deriving Repr, DecidableEq

/-- `ffs_block_write_disk`: reserve `sizeof *disk_block + fdb_data_len`
bytes, write the header at the reserved location, then — only when
`fdb_data_len > 0` — write `fdb_data_len` bytes of payload immediately
after the header.  Any nonzero collaborator return code is returned at
once.  The result carries the return code, the final values of the two
caller-supplied out-parameters (assigned only on the success path), and
the trace of collaborator calls made. -/
def ffs_block_write_disk (env : WriterEnv) (disk_block : DiskBlock)
    (data : List Nat) (out_area_idx out_area_offset : Nat) :
    Int × Nat × Nat × List WriterCall :=
  let num_bytes := DISK_BLOCK_SIZE + disk_block.fdb_data_len
  let (rc, area_idx, offset) := env.reserve num_bytes
  let trace := [WriterCall.reserve num_bytes]
  if rc ≠ 0 then (rc, out_area_idx, out_area_offset, trace)
  else
    let hdr := serializeDiskBlock disk_block
    let rcH := env.flash_write area_idx offset hdr
    let trace := trace ++ [WriterCall.flash_write area_idx offset hdr]
    if rcH ≠ 0 then (rcH, out_area_idx, out_area_offset, trace)
    else if disk_block.fdb_data_len > 0 then
      let payload := data.take disk_block.fdb_data_len
      let rcD := env.flash_write area_idx (offset + DISK_BLOCK_SIZE) payload
      let trace :=
        trace ++ [WriterCall.flash_write area_idx (offset + DISK_BLOCK_SIZE) payload]
      if rcD ≠ 0 then (rcD, out_area_idx, out_area_offset, trace)
      else (0, area_idx, offset, trace)
    else (0, area_idx, offset, trace)

/-- Rewire the tail of the inode identified by `iid` (the first index entry
with that id — pointer identity is id identity): if its `fi_last_block` is
the removed entry, set it to `newPrev`; otherwise leave it alone.  This is
the in-place update `block.fb_inode_entry->fi_last_block = block.fb_prev`
guarded by the tail check. -/
def rewireLastBlock (inodes : List InodeEntry) (iid removedId : Nat)
    (newPrev : Option Nat) : List InodeEntry :=
  match inodes with
  | [] => []
  | ino :: rest =>
      if ino.fi_hash_entry.fhe_id = iid then
        (if ino.fi_last_block = some removedId then
          { ino with fi_last_block := newPrev }
        else ino) :: rest
      else ino :: rewireLastBlock rest iid removedId newPrev

/-- `ffs_block_delete_from_ram`: delete a block entry from the RAM
representation.  Materializes the resolved block; on failure the state is
returned untouched with the error code.  On success, if the owning inode's
`fi_last_block` is this entry it is rewired to the block's predecessor;
the entry is then removed from the index and its storage freed
(`ffs_hash_entry_free` releases arena storage and has no further effect on
the index model). -/
def ffs_block_delete_from_ram (flash : FlashEnv) (st : FsState)
    (block_entry : HashEntry) : Int × FsState :=
  match ffs_block_from_hash_entry flash st block_entry with
  | .error rc => (rc, st)
  | .ok block =>
      let inodes :=
        match block.fb_inode_entry with
        | some iid => rewireLastBlock st.inodes iid block_entry.fhe_id block.fb_prev
        | none => st.inodes
      (0, { inodes := inodes,
            blocks := ffs_hash_remove st.blocks block_entry })

/-! Concrete instances used by witnesses and counterexamples. -/

/-- A well-formed disk header: block 100 of inode 10, no predecessor,
4-byte payload. -/
def dbGood : DiskBlock :=
  ⟨FFS_BLOCK_MAGIC, 100, 3, 10, FFS_ID_NONE, 4⟩

/-- A header whose magic field is wrong (e.g. erased flash). -/
def dbBadMagic : DiskBlock :=
  ⟨0, 100, 3, 10, FFS_ID_NONE, 4⟩

/-- The index entry for block 100, stored at area 0, offset 0. -/
def entry100 : HashEntry := ⟨100, ⟨0, 0⟩⟩

/-- Inode 10, whose chain tail is block 100. -/
def inode10 : InodeEntry := ⟨⟨10, ⟨0, 40⟩⟩, some 100⟩

/-- An index holding inode 10 and block entry 100. -/
def stOne : FsState := ⟨[inode10], [entry100]⟩

/-- An empty index. -/
def stEmpty : FsState := ⟨[], []⟩

/-- Flash on which every header-sized read yields `dbGood`. -/
def flashGood : FlashEnv := fun _ _ => (0, dbGood)

/-- Flash on which every header-sized read yields a wrong-magic header. -/
def flashBadMagic : FlashEnv := fun _ _ => (0, dbBadMagic)

/-- Flash on which every read fails with return code 7. -/
def flashErr : FlashEnv := fun _ _ => (7, dbGood)

/-- A writer environment that always reserves (area 1, offset 5) and whose
writes all succeed. -/
def envOk : WriterEnv := ⟨fun _ => (0, 1, 5), fun _ _ _ => 0⟩

/-- A writer environment whose allocator always fails with code 11. -/
def envNoSpace : WriterEnv := ⟨fun _ => (11, 0, 0), fun _ _ _ => 0⟩

/-- An in-memory block owned by inode 10 with no predecessor. -/
def blockOfInode10 : Block := ⟨100, 3, ⟨0, 0⟩, some 10, none, 4⟩

/-- The reservation size the writer computes for a header:
`sizeof *disk_block + fdb_data_len`. -/
def reserveSize (db : DiskBlock) : Nat :=
  DISK_BLOCK_SIZE + db.fdb_data_len

/-- The header write the block writer makes: the serialized header at the
location the allocator returned. -/
def headerCall (env : WriterEnv) (db : DiskBlock) : WriterCall :=
  .flash_write (env.reserve (reserveSize db)).2.1
    (env.reserve (reserveSize db)).2.2 (serializeDiskBlock db)

/-- The payload write the block writer makes when `fdb_data_len > 0`:
`fdb_data_len` bytes immediately after the header. -/
def payloadCall (env : WriterEnv) (db : DiskBlock) (data : List Nat) : WriterCall :=
  .flash_write (env.reserve (reserveSize db)).2.1
    ((env.reserve (reserveSize db)).2.2 + DISK_BLOCK_SIZE)
    (data.take db.fdb_data_len)

/-- The return code of the writer's header write. -/
def headerRc (env : WriterEnv) (db : DiskBlock) : Int :=
  env.flash_write (env.reserve (reserveSize db)).2.1
    (env.reserve (reserveSize db)).2.2 (serializeDiskBlock db)

/-- The return code of the writer's payload write. -/
def payloadRc (env : WriterEnv) (db : DiskBlock) (data : List Nat) : Int :=
  env.flash_write (env.reserve (reserveSize db)).2.1
    ((env.reserve (reserveSize db)).2.2 + DISK_BLOCK_SIZE)
    (data.take db.fdb_data_len)

/-! Helper lemmas. -/

/-- Recomposing a 32-bit value from its little-endian bytes. -/
theorem recompose32 (n : Nat) (h : n < 2 ^ 32) :
    n % 2 ^ 8 + n / 2 ^ 8 % 2 ^ 8 * 2 ^ 8 + n / 2 ^ 16 % 2 ^ 8 * 2 ^ 16 +
      n / 2 ^ 24 % 2 ^ 8 * 2 ^ 24 = n := by
  omega

/-- Recomposing a 16-bit value from its little-endian bytes. -/
theorem recompose16 (n : Nat) (h : n < 2 ^ 16) :
    n % 2 ^ 8 + n / 2 ^ 8 % 2 ^ 8 * 2 ^ 8 = n := by
  omega

/-- Decoding the serialization of a width-respecting header with the right
magic recovers the header exactly. -/
theorem decode_serialize (db : DiskBlock) (hWf : db.Wf)
    (hm : db.fdb_magic = FFS_BLOCK_MAGIC) :
    decodeDiskBlock (serializeDiskBlock db) = .ok db := by
  obtain ⟨h1, h2, h3, h4, h5, h6⟩ := hWf
  have e0 : readLe32 (serializeDiskBlock db) 0 = db.fdb_magic := by
    simp [readLe32, serializeDiskBlock, le32, le16, List.getD]; omega
  have e4 : readLe32 (serializeDiskBlock db) 4 = db.fdb_id := by
    simp [readLe32, serializeDiskBlock, le32, le16, List.getD]; omega
  have e8 : readLe32 (serializeDiskBlock db) 8 = db.fdb_seq := by
    simp [readLe32, serializeDiskBlock, le32, le16, List.getD]; omega
  have e12 : readLe32 (serializeDiskBlock db) 12 = db.fdb_inode_id := by
    simp [readLe32, serializeDiskBlock, le32, le16, List.getD]; omega
  have e16 : readLe32 (serializeDiskBlock db) 16 = db.fdb_prev_id := by
    simp [readLe32, serializeDiskBlock, le32, le16, List.getD]; omega
  have e20 : readLe16 (serializeDiskBlock db) 20 = db.fdb_data_len := by
    simp [readLe16, serializeDiskBlock, le32, le16, List.getD]; omega
  simp [decodeDiskBlock, e0, e4, e8, e12, e16, e20, hm]
  rw [← hm]

/-- Looking an inode up after a tail rewire: the first entry carrying the
rewired identifier is updated exactly when its tail was the removed entry;
the lookup still finds it. -/
theorem find_rewire (l : List InodeEntry) (iid rid : Nat) (p : Option Nat) :
    (rewireLastBlock l iid rid p).find?
        (fun ino => ino.fi_hash_entry.fhe_id == iid) =
      (l.find? (fun ino => ino.fi_hash_entry.fhe_id == iid)).map
        (fun ino => if ino.fi_last_block = some rid then
          { ino with fi_last_block := p } else ino) := by
  induction l with
  | nil => simp [rewireLastBlock]
  | cons a rest ih =>
      by_cases h : a.fi_hash_entry.fhe_id = iid
      · by_cases hl : a.fi_last_block = some rid <;>
          simp [rewireLastBlock, h, hl, List.find?_cons]
      · simp [rewireLastBlock, h, List.find?_cons, ih]

/-- C4: for a `Block` whose owner reference is resolved and whose fields
respect the C integer widths, decoding the byte serialization of the
header `ffs_block_to_disk` produces recovers that header exactly — field
for field — and the decode does not fail. -/
theorem ffs_block_to_disk_roundtrip (block : Block) (iid : Nat)
    (hio : block.fb_inode_entry = some iid)
    (hid : block.fb_id < 2 ^ 32) (hseq : block.fb_seq < 2 ^ 32)
    (hiid : iid < 2 ^ 32)
    (hprev : ∀ pid, block.fb_prev = some pid → pid < 2 ^ 32)
    (hlen : block.fb_data_len < 2 ^ 16) :
    decodeDiskBlock (serializeDiskBlock (ffs_block_to_disk block)) =
      .ok (ffs_block_to_disk block) := by
  apply decode_serialize
  · refine ⟨by simp [ffs_block_to_disk]; decide, ?_, ?_, ?_, ?_, ?_⟩
    · simpa [ffs_block_to_disk] using hid
    · simpa [ffs_block_to_disk] using hseq
    · simpa [ffs_block_to_disk, hio] using hiid
    · rcases hp : block.fb_prev with _ | pid
      · simp [ffs_block_to_disk, hp]; decide
      · simpa [ffs_block_to_disk, hp] using hprev pid hp
    · simpa [ffs_block_to_disk] using hlen
  · rfl

/-- Witness for C4 at a concrete block. -/
theorem ffs_block_to_disk_roundtrip_witness :
    decodeDiskBlock (serializeDiskBlock (ffs_block_to_disk blockOfInode10)) =
      .ok (ffs_block_to_disk blockOfInode10) :=
  ffs_block_to_disk_roundtrip blockOfInode10 10 rfl (by decide) (by decide)
    (by decide) (fun pid h => by simp [blockOfInode10] at h) (by decide)

/-- C5: when the underlying flash read succeeds but the header's magic
field is not `FFS_BLOCK_MAGIC`, the block reader fails with `FFS_EUNEXP`
— which is neither `FFS_ECORRUPT` nor success; when the flash read itself
fails, its return code is propagated unchanged. -/
theorem ffs_block_read_disk_error_modes (flash : FlashEnv) (ai ao : Nat) :
    (∀ db, flash ai ao = (0, db) → db.fdb_magic ≠ FFS_BLOCK_MAGIC →
      ffs_block_read_disk flash ai ao = .error FFS_EUNEXP ∧
        FFS_EUNEXP ≠ FFS_ECORRUPT ∧ FFS_EUNEXP ≠ 0) ∧
    (∀ rc db, flash ai ao = (rc, db) → rc ≠ 0 →
      ffs_block_read_disk flash ai ao = .error rc) := by
  constructor
  · intro db h hm
    refine ⟨?_, by decide, by decide⟩
    simp [ffs_block_read_disk, h, hm]
  · intro rc db h hrc
    simp [ffs_block_read_disk, h, hrc]

/-- Witness for C5: a wrong-magic header and a failing flash read at a
concrete location. -/
theorem ffs_block_read_disk_error_modes_witness :
    ffs_block_read_disk flashBadMagic 0 0 = .error FFS_EUNEXP ∧
      ffs_block_read_disk flashErr 0 0 = .error 7 :=
  ⟨((ffs_block_read_disk_error_modes flashBadMagic 0 0).1 dbBadMagic rfl
      (by decide)).1,
   (ffs_block_read_disk_error_modes flashErr 0 0).2 7 dbGood rfl (by decide)⟩

/-- C6: encoding a block whose owner reference is resolved stamps the
magic constant, copies `id`, `seq` and `data_len` unchanged, takes
`inode_id` from the owning entry's identifier, and sets `prev_id` to the
sentinel exactly when `prev` is none and to the predecessor's identifier
otherwise. -/
theorem ffs_block_to_disk_fields (block : Block) (iid : Nat)
    (h : block.fb_inode_entry = some iid) :
    (ffs_block_to_disk block).fdb_magic = FFS_BLOCK_MAGIC ∧
    (ffs_block_to_disk block).fdb_id = block.fb_id ∧
    (ffs_block_to_disk block).fdb_seq = block.fb_seq ∧
    (ffs_block_to_disk block).fdb_data_len = block.fb_data_len ∧
    (ffs_block_to_disk block).fdb_inode_id = iid ∧
    (block.fb_prev = none →
      (ffs_block_to_disk block).fdb_prev_id = FFS_ID_NONE) ∧
    ∀ pid, block.fb_prev = some pid →
      (ffs_block_to_disk block).fdb_prev_id = pid := by
  refine ⟨rfl, rfl, rfl, rfl, ?_, ?_, ?_⟩
  · simp [ffs_block_to_disk, h]
  · intro hp; simp [ffs_block_to_disk, hp]
  · intro pid hp; simp [ffs_block_to_disk, hp]

/-- Witness for C6 at a concrete block. -/
theorem ffs_block_to_disk_fields_witness :
    (ffs_block_to_disk blockOfInode10).fdb_inode_id = 10 ∧
      (ffs_block_to_disk blockOfInode10).fdb_prev_id = FFS_ID_NONE := by
  have h := ffs_block_to_disk_fields blockOfInode10 10 rfl
  exact ⟨h.2.2.2.2.1, h.2.2.2.2.2.1 rfl⟩

/-- C8: the reference-free materialization always leaves `prev`
unresolved; for a header whose `prev_id` is the sentinel, resolution
yields `prev = none` and its outcome is independent of the block side of
the index (no predecessor lookup is consulted); and in any successfully
resolved block, `prev` is none exactly when the header's `prev_id` was
the sentinel. -/
theorem ffs_block_from_disk_sentinel (st : FsState) (db : DiskBlock)
    (ai ao : Nat) :
    (ffs_block_from_disk_no_ptrs db ai ao).fb_prev = none ∧
    (db.fdb_prev_id = FFS_ID_NONE →
      (∀ b, ffs_block_from_disk st db ai ao = .ok b → b.fb_prev = none) ∧
      ∀ bs, ffs_block_from_disk { st with blocks := bs } db ai ao =
        ffs_block_from_disk st db ai ao) ∧
    ∀ b, ffs_block_from_disk st db ai ao = .ok b →
      (b.fb_prev = none ↔ db.fdb_prev_id = FFS_ID_NONE) := by
  refine ⟨rfl, ?_, ?_⟩
  · intro hs
    constructor
    · intro b hb
      rcases hfi : ffs_hash_find_inode st db.fdb_inode_id with _ | ino
      · simp [ffs_block_from_disk, hfi] at hb
      · simp [ffs_block_from_disk, hfi, hs] at hb
        simp [← hb, ffs_block_from_disk_no_ptrs]
    · intro bs
      have hfi : ffs_hash_find_inode { st with blocks := bs }
          db.fdb_inode_id = ffs_hash_find_inode st db.fdb_inode_id := rfl
      rcases h : ffs_hash_find_inode st db.fdb_inode_id with _ | ino <;>
        simp [ffs_block_from_disk, hfi, h, hs]
  · intro b hb
    rcases hfi : ffs_hash_find_inode st db.fdb_inode_id with _ | ino
    · simp [ffs_block_from_disk, hfi] at hb
    · by_cases hs : db.fdb_prev_id = FFS_ID_NONE
      · simp [ffs_block_from_disk, hfi, hs] at hb
        simp [← hb, ffs_block_from_disk_no_ptrs, hs]
      · rcases hfb : ffs_hash_find_block st db.fdb_prev_id with _ | pe
        · simp [ffs_block_from_disk, hfi, hs, hfb] at hb
        · simp [ffs_block_from_disk, hfi, hs, hfb] at hb
          simp [← hb, hs]

/-- Witness for C8's hypothesis-bearing parts at a concrete state and
header with sentinel `prev_id`. -/
theorem ffs_block_from_disk_sentinel_witness :
    (∀ b, ffs_block_from_disk stOne dbGood 0 0 = .ok b → b.fb_prev = none) ∧
      ∀ b, ffs_block_from_disk stOne dbGood 0 0 = .ok b →
        (b.fb_prev = none ↔ dbGood.fdb_prev_id = FFS_ID_NONE) :=
  ⟨((ffs_block_from_disk_sentinel stOne dbGood 0 0).2.1 rfl).1,
   (ffs_block_from_disk_sentinel stOne dbGood 0 0).2.2⟩

/-- C2: for a block entry whose header reads back with the correct magic,
resolved materialization fails with `FFS_ECORRUPT` exactly when the
owning inode is missing from the index or a non-sentinel predecessor is
missing from the index; `FFS_ECORRUPT` is the only error it can return;
and the reference-free materialization succeeds on the same input. -/
theorem ffs_block_from_hash_entry_corrupt_characterization
    (flash : FlashEnv) (st : FsState) (entry : HashEntry) (db : DiskBlock)
    (hread : flash entry.fhe_flash_loc.area_idx
      entry.fhe_flash_loc.area_offset = (0, db))
    (hmagic : db.fdb_magic = FFS_BLOCK_MAGIC) :
    (ffs_block_from_hash_entry flash st entry = .error FFS_ECORRUPT ↔
      ffs_hash_find_inode st db.fdb_inode_id = none ∨
        (db.fdb_prev_id ≠ FFS_ID_NONE ∧
          ffs_hash_find_block st db.fdb_prev_id = none)) ∧
    (∀ rc, ffs_block_from_hash_entry flash st entry = .error rc →
      rc = FFS_ECORRUPT) ∧
    ∃ b, ffs_block_from_hash_entry_no_ptrs flash entry = .ok b := by
  have hr : ffs_block_read_disk flash entry.fhe_flash_loc.area_idx
      entry.fhe_flash_loc.area_offset = .ok db := by
    simp [ffs_block_read_disk, hread, hmagic]
  refine ⟨?_, ?_, ?_⟩
  · rcases hfi : ffs_hash_find_inode st db.fdb_inode_id with _ | ino
    · simp [ffs_block_from_hash_entry, ffs_flash_loc_expand, hr,
        ffs_block_from_disk, hfi]
    · by_cases hs : db.fdb_prev_id = FFS_ID_NONE
      · simp [ffs_block_from_hash_entry, ffs_flash_loc_expand, hr,
          ffs_block_from_disk, hfi, hs]
      · rcases hfb : ffs_hash_find_block st db.fdb_prev_id with _ | pe <;>
          simp [ffs_block_from_hash_entry, ffs_flash_loc_expand, hr,
            ffs_block_from_disk, hfi, hs, hfb]
  · intro rc hrc
    rcases hfi : ffs_hash_find_inode st db.fdb_inode_id with _ | ino
    · simp [ffs_block_from_hash_entry, ffs_flash_loc_expand, hr,
        ffs_block_from_disk, hfi] at hrc
      omega
    · by_cases hs : db.fdb_prev_id = FFS_ID_NONE
      · simp [ffs_block_from_hash_entry, ffs_flash_loc_expand, hr,
          ffs_block_from_disk, hfi, hs] at hrc
      · rcases hfb : ffs_hash_find_block st db.fdb_prev_id with _ | pe <;>
          simp [ffs_block_from_hash_entry, ffs_flash_loc_expand, hr,
            ffs_block_from_disk, hfi, hs, hfb] at hrc
        omega
  · exact ⟨ffs_block_from_disk_no_ptrs db entry.fhe_flash_loc.area_idx
        entry.fhe_flash_loc.area_offset,
      by simp [ffs_block_from_hash_entry_no_ptrs, ffs_flash_loc_expand, hr]⟩

/-- Witness for C2: on an empty index the resolved mode reports
corruption while the reference-free mode succeeds. -/
theorem ffs_block_from_hash_entry_corrupt_witness :
    ffs_block_from_hash_entry flashGood stEmpty entry100 =
        .error FFS_ECORRUPT ∧
      ∃ b, ffs_block_from_hash_entry_no_ptrs flashGood entry100 = .ok b :=
  ⟨(ffs_block_from_hash_entry_corrupt_characterization flashGood stEmpty
      entry100 dbGood rfl rfl).1.mpr (Or.inl rfl),
   (ffs_block_from_hash_entry_corrupt_characterization flashGood stEmpty
      entry100 dbGood rfl rfl).2.2⟩

/-- C1: when the resolved materialization of a block entry succeeds,
deletion succeeds, and the owning inode afterwards has its tail rewired
to the removed block's predecessor if the removed entry was its tail, and
is untouched otherwise. -/
theorem ffs_block_delete_from_ram_tail_repair
    (flash : FlashEnv) (st : FsState) (entry : HashEntry) (block : Block)
    (hmat : ffs_block_from_hash_entry flash st entry = .ok block)
    (iid : Nat) (hiid : block.fb_inode_entry = some iid)
    (ino : InodeEntry) (hfind : ffs_hash_find_inode st iid = some ino) :
    (ffs_block_delete_from_ram flash st entry).1 = 0 ∧
    ffs_hash_find_inode (ffs_block_delete_from_ram flash st entry).2 iid =
      some (if ino.fi_last_block = some entry.fhe_id then
        { ino with fi_last_block := block.fb_prev } else ino) := by
  constructor
  · simp [ffs_block_delete_from_ram, hmat]
  · simp only [ffs_block_delete_from_ram, hmat, hiid]
    simp only [ffs_hash_find_inode] at hfind ⊢
    simp [find_rewire, hfind]

/-- Witness for C1: deleting the tail block 100 of inode 10 rewires the
inode's tail to none. -/
theorem ffs_block_delete_from_ram_tail_repair_witness :
    (ffs_block_delete_from_ram flashGood stOne entry100).1 = 0 ∧
      ffs_hash_find_inode (ffs_block_delete_from_ram flashGood stOne
        entry100).2 10 = some ⟨⟨10, ⟨0, 40⟩⟩, none⟩ := by
  have h := ffs_block_delete_from_ram_tail_repair flashGood stOne entry100
    ⟨100, 3, ⟨0, 0⟩, some 10, none, 4⟩ (by rfl) 10 rfl inode10 rfl
  refine ⟨h.1, ?_⟩
  rw [h.2]
  rfl

/-- C3 counterexample: on a header whose magic field is wrong, deletion
fails with `FFS_EUNEXP`, a failure mode that is neither success nor
`FFS_ECORRUPT`. -/
theorem ffs_block_delete_from_ram_non_corrupt_counterexample :
    (ffs_block_delete_from_ram flashBadMagic stEmpty entry100).1 =
        FFS_EUNEXP ∧
      FFS_EUNEXP ≠ 0 ∧ FFS_EUNEXP ≠ FFS_ECORRUPT :=
  ⟨rfl, by decide, by decide⟩

/-- C3 (amended): when the flash read at the entry's location succeeds
and the header carries the block magic, deletion either succeeds or fails
with `FFS_ECORRUPT`; without that proviso it also propagates the reader's
failures (`FFS_EUNEXP` or a flash I/O code). -/
theorem ffs_block_delete_from_ram_ok_or_corrupt
    (flash : FlashEnv) (st : FsState) (entry : HashEntry) (db : DiskBlock)
    (hread : flash entry.fhe_flash_loc.area_idx
      entry.fhe_flash_loc.area_offset = (0, db))
    (hmagic : db.fdb_magic = FFS_BLOCK_MAGIC) :
    (ffs_block_delete_from_ram flash st entry).1 = 0 ∨
      (ffs_block_delete_from_ram flash st entry).1 = FFS_ECORRUPT := by
  have hr : ffs_block_read_disk flash entry.fhe_flash_loc.area_idx
      entry.fhe_flash_loc.area_offset = .ok db := by
    simp [ffs_block_read_disk, hread, hmagic]
  rcases hfi : ffs_hash_find_inode st db.fdb_inode_id with _ | ino
  · simp [ffs_block_delete_from_ram, ffs_block_from_hash_entry,
      ffs_flash_loc_expand, hr, ffs_block_from_disk, hfi]
  · by_cases hs : db.fdb_prev_id = FFS_ID_NONE
    · simp [ffs_block_delete_from_ram, ffs_block_from_hash_entry,
        ffs_flash_loc_expand, hr, ffs_block_from_disk, hfi, hs]
    · rcases hfb : ffs_hash_find_block st db.fdb_prev_id with _ | pe <;>
        simp [ffs_block_delete_from_ram, ffs_block_from_hash_entry,
          ffs_flash_loc_expand, hr, ffs_block_from_disk, hfi, hs, hfb]

/-- Witness for the amended C3 at a concrete good read. -/
theorem ffs_block_delete_from_ram_ok_or_corrupt_witness :
    (ffs_block_delete_from_ram flashGood stOne entry100).1 = 0 ∨
      (ffs_block_delete_from_ram flashGood stOne entry100).1 =
        FFS_ECORRUPT :=
  ffs_block_delete_from_ram_ok_or_corrupt flashGood stOne entry100 dbGood
    rfl rfl

/-- C9: when deletion fails, the whole RAM state — the index with its
entries and every inode's tail reference — is exactly as before: nothing
is removed, freed, or rewired on the error path. -/
theorem ffs_block_delete_from_ram_error_frame (flash : FlashEnv)
    (st : FsState) (entry : HashEntry) :
    (ffs_block_delete_from_ram flash st entry).1 ≠ 0 →
      (ffs_block_delete_from_ram flash st entry).2 = st := by
  intro h
  rcases hm : ffs_block_from_hash_entry flash st entry with rc | blk
  · simp [ffs_block_delete_from_ram, hm]
  · simp [ffs_block_delete_from_ram, hm] at h

/-- Witness for C9: a failing flash read leaves the state untouched. -/
theorem ffs_block_delete_from_ram_error_frame_witness :
    (ffs_block_delete_from_ram flashErr stOne entry100).2 = stOne :=
  ffs_block_delete_from_ram_error_frame flashErr stOne entry100 (by decide)

/-- Closed-form behavior of the block writer, by cases on the three
collaborator return codes. -/
theorem ffs_block_write_disk_eq (env : WriterEnv) (db : DiskBlock)
    (data : List Nat) (oa oo : Nat) :
    ffs_block_write_disk env db data oa oo =
      if (env.reserve (reserveSize db)).1 ≠ 0 then
        ((env.reserve (reserveSize db)).1, oa, oo, [.reserve (reserveSize db)])
      else if headerRc env db ≠ 0 then
        (headerRc env db, oa, oo,
          [.reserve (reserveSize db), headerCall env db])
      else if 0 < db.fdb_data_len then
        (if payloadRc env db data ≠ 0 then
          (payloadRc env db data, oa, oo,
            [.reserve (reserveSize db), headerCall env db,
              payloadCall env db data])
        else ((0 : Int), (env.reserve (reserveSize db)).2.1,
          (env.reserve (reserveSize db)).2.2,
          [.reserve (reserveSize db), headerCall env db,
            payloadCall env db data]))
      else ((0 : Int), (env.reserve (reserveSize db)).2.1,
        (env.reserve (reserveSize db)).2.2,
        [.reserve (reserveSize db), headerCall env db]) := by
  rcases hres : env.reserve (reserveSize db) with ⟨rc, a, o⟩
  simp only [reserveSize] at hres
  simp only [ffs_block_write_disk, headerRc, headerCall, payloadRc,
    payloadCall, reserveSize, hres]
  by_cases h1 : rc = 0
  · by_cases h2 : env.flash_write a o (serializeDiskBlock db) = 0
    · by_cases h3 : 0 < db.fdb_data_len
      · by_cases h4 : env.flash_write a (o + DISK_BLOCK_SIZE)
            (data.take db.fdb_data_len) = 0 <;>
          simp [h1, h2, h3, h4]
      · simp [h1, h2, h3]
    · simp [h1, h2]
  · simp [h1]

/-- C7: the block writer reserves exactly `sizeof header + data_len`
bytes (and makes no other reservation); on success the out-parameters are
the reserved location and the calls made are exactly the reservation, a
header write at that location, and — only when `data_len > 0` — a payload
write of `data_len` bytes immediately after the header; on failure the
returned code is the failing collaborator's own code and the call trace
shows each collaborator asked at most once (no retry). -/
theorem ffs_block_write_disk_calls (env : WriterEnv) (db : DiskBlock)
    (data : List Nat) (oa oo : Nat) :
    ((ffs_block_write_disk env db data oa oo).2.2.2.head? =
      some (.reserve (reserveSize db))) ∧
    (∀ n, WriterCall.reserve n ∈
        (ffs_block_write_disk env db data oa oo).2.2.2 →
      n = reserveSize db) ∧
    ((ffs_block_write_disk env db data oa oo).1 = 0 →
      (ffs_block_write_disk env db data oa oo).2.1 =
          (env.reserve (reserveSize db)).2.1 ∧
        (ffs_block_write_disk env db data oa oo).2.2.1 =
          (env.reserve (reserveSize db)).2.2 ∧
        (ffs_block_write_disk env db data oa oo).2.2.2 =
          .reserve (reserveSize db) :: headerCall env db ::
            (if 0 < db.fdb_data_len then [payloadCall env db data]
             else [])) ∧
    ((ffs_block_write_disk env db data oa oo).1 ≠ 0 →
      ((ffs_block_write_disk env db data oa oo).1 =
          (env.reserve (reserveSize db)).1 ∧
        (ffs_block_write_disk env db data oa oo).2.2.2 =
          [.reserve (reserveSize db)]) ∨
      ((ffs_block_write_disk env db data oa oo).1 = headerRc env db ∧
        (ffs_block_write_disk env db data oa oo).2.2.2 =
          [.reserve (reserveSize db), headerCall env db]) ∨
      (0 < db.fdb_data_len ∧
        (ffs_block_write_disk env db data oa oo).1 =
          payloadRc env db data ∧
        (ffs_block_write_disk env db data oa oo).2.2.2 =
          [.reserve (reserveSize db), headerCall env db,
            payloadCall env db data])) := by
  refine ⟨?_, ?_, ?_, ?_⟩ <;> rw [ffs_block_write_disk_eq]
  · split_ifs <;> rfl
  · split_ifs <;> intro n hn <;>
      (first
        | (simp only [List.mem_cons, List.mem_singleton,
            List.not_mem_nil, or_false] at hn
           rcases hn with hn | hn | hn <;>
             simp [headerCall, payloadCall] at hn <;> exact hn)
        | (simp at hn; exact hn))
  · split_ifs <;> intro h <;> simp_all
  · split_ifs <;> intro h <;> simp_all

/-- Witness for C7: a concrete all-success environment writing a 4-byte
payload. -/
theorem ffs_block_write_disk_calls_witness :
    (ffs_block_write_disk envOk dbGood [1, 2, 3, 4] 7 9).2.1 = 1 ∧
      (ffs_block_write_disk envOk dbGood [1, 2, 3, 4] 7 9).2.2.1 = 5 := by
  have h := (ffs_block_write_disk_calls envOk dbGood [1, 2, 3, 4] 7 9).2.2.1
    (by decide)
  exact ⟨h.1.trans (by decide), h.2.1.trans (by decide)⟩

/-- C10: when the block writer fails — allocator failure or either flash
write failing — the caller-supplied out-parameters keep their previous
values; they are assigned only on the success path. -/
theorem ffs_block_write_disk_error_frame (env : WriterEnv) (db : DiskBlock)
    (data : List Nat) (oa oo : Nat) :
    (ffs_block_write_disk env db data oa oo).1 ≠ 0 →
      (ffs_block_write_disk env db data oa oo).2.1 = oa ∧
        (ffs_block_write_disk env db data oa oo).2.2.1 = oo := by
  rw [ffs_block_write_disk_eq]
  by_cases h1 : (env.reserve (reserveSize db)).1 ≠ 0
  · simp [h1]
  · by_cases h2 : headerRc env db ≠ 0
    · simp [h1, h2]
    · by_cases h3 : 0 < db.fdb_data_len
      · by_cases h4 : payloadRc env db data ≠ 0 <;> simp [h1, h2, h3, h4]
      · simp [h1, h2, h3]

/-- Witness for C10: a failing allocator leaves the out-parameters at
their previous values. -/
theorem ffs_block_write_disk_error_frame_witness :
    (ffs_block_write_disk envNoSpace dbGood [1, 2, 3, 4] 7 9).2.1 = 7 ∧
      (ffs_block_write_disk envNoSpace dbGood [1, 2, 3, 4] 7 9).2.2.1 = 9 :=
  ffs_block_write_disk_error_frame envNoSpace dbGood [1, 2, 3, 4] 7 9
    (by decide)

end Ffs
